import Mathlib

/-! A verification development for the `mongo` wrapper (`src/mongo.go`).

The wrapper is a thin layer over the `mgo` driver.  The embedding has three layers:

* `Go`   : the few pieces of Go semantics the wrapper relies on (byte length of strings,
           nil-able maps, run-time aborts);
* `hex`, `bson`, `mgo` : the functions of the driver (`gopkg.in/mgo.v2`) and of the Go
           library (`encoding/hex`) that the wrapper calls.  They are dependencies, not code
           of this repository.  The functions that compute locally (`bson.ObjectIdHex`,
           `Session.DB`, `Database.C`, `Collection.Find`, `Query.Select`) are transcribed
           from the driver; the functions that talk to the server (`Dial`, `One`, `All`,
           `Insert`, ...) are fields of a `mgo.Driver` record that every wrapper operation
           takes as a parameter, so that every statement holds for every server behaviour;
* `Mongo` : the wrapper itself, one definition per function of `src/mongo.go`.

Every wrapper operation returns a `Mongo.Run`: the outcome (a normal return or an abort),
the state of the registry afterwards, and the list of driver calls it made, in order.
-/

set_option autoImplicit false

namespace Go

/-- Result of running a Go function: it returns normally or aborts (a Go run-time panic). -/
inductive Outcome (α : Type) where
  | ret (a : α)
  | abort (reason : String)

/-- A non-nil Go `error` value; `errors.New msg` builds `⟨msg⟩`.  A Go `error` is an
`Option Error`, `none` being `nil`. -/
structure Error where
  msg : String
  deriving DecidableEq, Repr

/-- UTF-8 encoding of one character, as Go stores it in a `string`. -/
def utf8 (c : Char) : List Nat :=
  let v := c.toNat
  if v < 0x80 then [v]
  else if v < 0x800 then [0xC0 + v / 0x40, 0x80 + v % 0x40]
  else if v < 0x10000 then [0xE0 + v / 0x1000, 0x80 + v / 0x40 % 0x40, 0x80 + v % 0x40]
  else [0xF0 + v / 0x40000, 0x80 + v / 0x1000 % 0x40, 0x80 + v / 0x40 % 0x40, 0x80 + v % 0x40]

/-- The bytes of a Go string, `[]byte(s)`. -/
def bytes (s : String) : List Nat :=
  s.data.flatMap utf8

/-- Go `len(s)` on a string: the number of bytes, not of characters. -/
def len (s : String) : Nat :=
  (bytes s).length

/-- A Go `map[string]V`: `none` is the nil map, `some kvs` an initialised map held as an
association list with at most one entry per key. -/
abbrev Map (V : Type) := Option (List (String × V))

/-- Go `make(map[string]V)`. -/
def Map.make {V : Type} : Map V := some []

/-- Go `m[k]` read: the zero value (`none`, a nil pointer) when the key is absent or the map
is nil. -/
def Map.get {V : Type} (m : Map V) (k : String) : Option V :=
  match m with
  | none => none
  | some kvs => kvs.lookup k

/-- Go `m[k] = v`: aborts on the nil map, otherwise replaces or adds the entry of `k`. -/
def Map.set {V : Type} (m : Map V) (k : String) (v : V) : Outcome (Map V) :=
  match m with
  | none => .abort "assignment to entry in nil map"
  | some kvs => .ret (some ((k, v) :: kvs.filter (fun kv => kv.1 != k)))

end Go

namespace hex

/-- Go `encoding/hex`: value of one hexadecimal digit byte, `none` for any other byte. -/
def fromHexChar (c : Nat) : Option Nat :=
  if 48 ≤ c ∧ c ≤ 57 then some (c - 48)
  else if 97 ≤ c ∧ c ≤ 102 then some (c - 97 + 10)
  else if 65 ≤ c ∧ c ≤ 70 then some (c - 65 + 10)
  else none

/-- Go `hex.Decode` on the source bytes: each pair of digits `p q` gives the byte
`(a << 4) | b`; the result is `none` (a non-nil `error`) when a byte is not a hexadecimal
digit or the length is odd. -/
def Decode : List Nat → Option (List Nat)
  | [] => some []
  | [_] => none
  | p :: q :: rest =>
    match fromHexChar p, fromHexChar q with
    | some a, some b =>
      match Decode rest with
      | some out => some ((a <<< 4 ||| b) % 256 :: out)
      | none => none
    | _, _ => none

/-- Go `hex.DecodeString`. -/
def DecodeString (s : String) : Option (List Nat) :=
  Decode (Go.bytes s)

/-- The table `"0123456789abcdef"` of `encoding/hex`. -/
def hextable : List Char :=
  ['0', '1', '2', '3', '4', '5', '6', '7', '8', '9', 'a', 'b', 'c', 'd', 'e', 'f']

/-- Go `hex.EncodeToString`: the digits `hextable[v>>4]` and `hextable[v&0x0f]` of each
byte `v`. -/
def EncodeToString (src : List Nat) : String :=
  ⟨src.flatMap (fun v => [hextable.getD (v >>> 4) '0', hextable.getD (v &&& 0x0f) '0'])⟩

end hex

namespace bson

/-- Driver type `bson.ObjectId` (`type ObjectId string`): the raw bytes of the identifier. -/
structure ObjectId where
  raw : List Nat
  deriving DecidableEq, Repr

/-- The empty identifier `""`. -/
def ObjectId.empty : ObjectId := ⟨[]⟩

/-- Driver function `bson.ObjectIdHex`: decodes the hexadecimal representation and aborts
when `hex.DecodeString` reports an error or the decoded value is not 12 bytes long.  The
text of the abort only names the input. -/
def ObjectIdHex (s : String) : Go.Outcome ObjectId :=
  match hex.DecodeString s with
  | none => .abort ("invalid input to ObjectIdHex: " ++ s)
  | some d => if d.length ≠ 12 then .abort ("invalid input to ObjectIdHex: " ++ s) else .ret ⟨d⟩

/-- Driver method `ObjectId.Hex`: the hexadecimal representation of the identifier. -/
def ObjectId.Hex (id : ObjectId) : String :=
  hex.EncodeToString id.raw

/-- A Go `interface{}` value as the driver serialises it. -/
inductive Value where
  | null
  | bool (b : Bool)
  | int (i : Int)
  | str (s : String)
  | oid (id : ObjectId)
  | doc (fields : List (String × Value))
  | arr (items : List Value)

/-- Driver type `bson.M` (`map[string]interface{}`): `none` is the nil map. -/
abbrev M := Option (List (String × Value))

end bson

namespace mgo

/-- Driver type `mgo.Session`, seen through a pointer: the identity of the dialled session
and its default database name. -/
structure Session where
  id : Nat
  defaultdb : String
  deriving DecidableEq, Repr

/-- Driver type `mgo.Database`: `Session` is a pointer and may be nil. -/
structure Database where
  Session : Option Session
  Name : String
  deriving DecidableEq, Repr

/-- Driver type `mgo.Collection`. -/
structure Collection where
  Database : Database
  Name : String
  FullName : String
  deriving DecidableEq, Repr

/-- Driver method `(*Session).DB`: the empty name stands for the session default database,
which is read through the receiver and aborts on a nil receiver. -/
def Session.DB (s : Option Session) (name : String) : Go.Outcome Database :=
  if name = "" then
    match s with
    | none => .abort "invalid memory address or nil pointer dereference"
    | some sess => .ret ⟨s, sess.defaultdb⟩
  else .ret ⟨s, name⟩

/-- Driver method `(*Database).C`. -/
def Database.C (db : Database) (name : String) : Collection :=
  ⟨db, name, db.Name ++ "." ++ name⟩

/-- Driver type `mgo.Query` as built by `Find` and `Select`: the collection, the filter
passed to `Find`, and the field selection (`none` until `Select` is called). -/
structure Query where
  collection : Collection
  query : bson.M
  selector : Option bson.M

/-- Driver method `(*Collection).Find`.  It reads `c.Database.Session` and locks that session
(`session.m.RLock()`) before it builds the query, so it aborts on a nil receiver and on a
handle whose session is nil. -/
def Collection.Find (c : Option Collection) (query : bson.M) : Go.Outcome Query :=
  match c with
  | none => .abort "invalid memory address or nil pointer dereference"
  | some coll =>
    match coll.Database.Session with
    | none => .abort "invalid memory address or nil pointer dereference"
    | some _ => .ret ⟨coll, query, none⟩

/-- Driver method `(*Query).Select`. -/
def Query.Select (q : Query) (selector : bson.M) : Query :=
  ⟨q.collection, q.query, some selector⟩

/-- The calls into the driver packages (`mgo`, `bson`), with their arguments, as the wrapper
issues them.  `Find`, `Insert`, `Update`, `RemoveId` and `RemoveAll` record the receiver the
wrapper read from its map, which is nil (`none`) for a key that is not cached. -/
inductive Call where
  | Dial (url : String)
  | DB (s : Option Session) (name : String)
  | C (db : Database) (name : String)
  | ObjectIdHex (s : String)
  | Find (c : Option Collection) (query : bson.M)
  | Select (q : Query) (selector : bson.M)
  | One (q : Query)
  | All (q : Query)
  | Insert (c : Option Collection) (doc : bson.Value)
  | Update (c : Option Collection) (selector : bson.M) (update : bson.Value)
  | RemoveId (c : Option Collection) (id : bson.ObjectId)
  | RemoveAll (c : Option Collection) (selector : bson.M)

/-- The server side of the driver, a parameter of the wrapper.  Each field gives what the
driver function of that name does on a non-nil receiver: it returns its Go results, or it
aborts (the driver does so, for instance, on a closed session).  `One` and `All` give the
value left in `result` together with the error; `RemoveAll` gives the number of removed
documents together with the error. -/
structure Driver where
  Dial : String → Go.Outcome (Option Session × Option Go.Error)
  One : Query → Go.Outcome (bson.M × Option Go.Error)
  All : Query → Go.Outcome (Option (List bson.M) × Option Go.Error)
  Insert : Collection → bson.Value → Go.Outcome (Option Go.Error)
  Update : Collection → bson.M → bson.Value → Go.Outcome (Option Go.Error)
  RemoveId : Collection → bson.ObjectId → Go.Outcome (Option Go.Error)
  RemoveAll : Collection → bson.M → Go.Outcome (Nat × Option Go.Error)

/-- A write method called on the receiver read from the map: a nil receiver is dereferenced
and aborts, otherwise the driver answers. -/
def onReceiver {α : Type} (c : Option Collection) (f : Collection → Go.Outcome α) :
    Go.Outcome α :=
  match c with
  | none => .abort "invalid memory address or nil pointer dereference"
  | some coll => f coll

end mgo

/-- The wrapper state, `type Mongo struct`: the session pointer and the map of collection
handles.  The zero value `⟨none, none⟩` is a registry on which `NewSession` never ran. -/
structure Mongo where
  Session : Option mgo.Session
  Collections : Go.Map mgo.Collection

namespace Mongo

/-- One run of a wrapper method: its outcome (the returned values, or an abort), the state of
the receiver afterwards, and the driver calls made, in order. -/
structure Run (α : Type) where
  outcome : Go.Outcome α
  registry : Mongo
  calls : List mgo.Call

/-- The text of the error built by `ObjectId` (line 41 of `mongo.go`). -/
def lengthMessage : String :=
  "ObjectId must be 24 hexademical characters long (to be converted to 12 bytes)"

/-- The key under which `NewCollection` stores a handle (line 35 of `mongo.go`). -/
def key (databaseName collectionName : String) : String :=
  databaseName ++ "." ++ collectionName

/-- Wrapper method `NewSession`. -/
def NewSession (drv : mgo.Driver) (m : Mongo) (url : String) : Run (Option Go.Error) :=
  match drv.Dial url with
  | .abort r => ⟨.abort r, m, [.Dial url]⟩
  | .ret (_, some err) => ⟨.ret (some err), m, [.Dial url]⟩
  | .ret (session, none) => ⟨.ret none, ⟨session, Go.Map.make⟩, [.Dial url]⟩

/-- Wrapper method `NewCollection`. -/
def NewCollection (m : Mongo) (databaseName collectionName : String) : Run mgo.Collection :=
  match mgo.Session.DB m.Session databaseName with
  | .abort r => ⟨.abort r, m, [.DB m.Session databaseName]⟩
  | .ret database =>
    let collectionAccess := database.C collectionName
    let calls := [mgo.Call.DB m.Session databaseName, mgo.Call.C database collectionName]
    match m.Collections.set (databaseName ++ "." ++ collectionName) collectionAccess with
    | .abort r => ⟨.abort r, m, calls⟩
    | .ret cs => ⟨.ret collectionAccess, ⟨m.Session, cs⟩, calls⟩

/-- Wrapper method `ObjectId`; the receiver is not used. -/
def ObjectId (m : Mongo) (_id : String) : Run (bson.ObjectId × Option Go.Error) :=
  if Go.len _id ≠ 24 then
    ⟨.ret (bson.ObjectId.empty, some ⟨lengthMessage⟩), m, []⟩
  else
    match bson.ObjectIdHex _id with
    | .abort r => ⟨.abort r, m, [.ObjectIdHex _id]⟩
    | .ret id => ⟨.ret (id, none), m, [.ObjectIdHex _id]⟩

/-- The common tail of `FindById` and `FindOne` (`if err != nil` onwards), after `One` left
`result` and `err`; an abort of the driver passes through. -/
def oneResult (o : Go.Outcome (bson.M × Option Go.Error)) :
    Go.Outcome (bson.M × Option Go.Error) :=
  match o with
  | .abort r => .abort r
  | .ret (_, some err) => .ret (none, some err)
  | .ret (result, none) => .ret (result, none)

/-- Wrapper method `FindById`. -/
def FindById (drv : mgo.Driver) (m : Mongo) (collectionName : String) (_id : bson.ObjectId)
    (selected : bson.M) : Run (bson.M × Option Go.Error) :=
  let query : bson.M := some [("_id", .oid _id)]
  let c := m.Collections.get collectionName
  if selected.isSome then
    match mgo.Collection.Find c query with
    | .abort r => ⟨.abort r, m, [.Find c query]⟩
    | .ret q =>
      ⟨oneResult (drv.One (q.Select selected)), m,
        [.Find c query, .Select q selected, .One (q.Select selected)]⟩
  else
    match mgo.Collection.Find c query with
    | .abort r => ⟨.abort r, m, [.Find c query]⟩
    | .ret q => ⟨oneResult (drv.One q), m, [.Find c query, .One q]⟩

/-- Wrapper method `FindOne`.  With a non-nil `selected` the argument of `Select` is `query`
(line 80 of `mongo.go`). -/
def FindOne (drv : mgo.Driver) (m : Mongo) (collectionName : String) (query : bson.M)
    (selected : bson.M) : Run (bson.M × Option Go.Error) :=
  let c := m.Collections.get collectionName
  if selected.isSome then
    match mgo.Collection.Find c query with
    | .abort r => ⟨.abort r, m, [.Find c query]⟩
    | .ret q =>
      ⟨oneResult (drv.One (q.Select query)), m,
        [.Find c query, .Select q query, .One (q.Select query)]⟩
  else
    match mgo.Collection.Find c query with
    | .abort r => ⟨.abort r, m, [.Find c query]⟩
    | .ret q => ⟨oneResult (drv.One q), m, [.Find c query, .One q]⟩

/-- The tail of `FindAll` (`if err != nil` onwards), after `All` left `result` and `err`; an
abort of the driver passes through. -/
def allResult (o : Go.Outcome (Option (List bson.M) × Option Go.Error)) :
    Go.Outcome (Option (List bson.M) × Option Go.Error) :=
  match o with
  | .abort r => .abort r
  | .ret (_, some err) => .ret (none, some err)
  | .ret (result, none) => .ret (result, none)

/-- Wrapper method `FindAll`. -/
def FindAll (drv : mgo.Driver) (m : Mongo) (collectionName : String) (query : bson.M)
    (selected : bson.M) : Run (Option (List bson.M) × Option Go.Error) :=
  let c := m.Collections.get collectionName
  if selected.isSome then
    match mgo.Collection.Find c query with
    | .abort r => ⟨.abort r, m, [.Find c query]⟩
    | .ret q =>
      ⟨allResult (drv.All (q.Select selected)), m,
        [.Find c query, .Select q selected, .All (q.Select selected)]⟩
  else
    match mgo.Collection.Find c query with
    | .abort r => ⟨.abort r, m, [.Find c query]⟩
    | .ret q => ⟨allResult (drv.All q), m, [.Find c query, .All q]⟩

/-- The shape shared by the four write methods (`if err := ...; err != nil`): `(false, err)`
on an error of the driver, `(true, nil)` otherwise; an abort passes through. -/
def writeOutcome (o : Go.Outcome (Option Go.Error)) : Go.Outcome (Bool × Option Go.Error) :=
  match o with
  | .abort r => .abort r
  | .ret (some err) => .ret (false, some err)
  | .ret none => .ret (true, none)

/-- The error of `RemoveAll`, whose first result `DeleteAll` drops (`_, err := ...`). -/
def dropInfo (o : Go.Outcome (Nat × Option Go.Error)) : Go.Outcome (Option Go.Error) :=
  match o with
  | .abort r => .abort r
  | .ret (_, err) => .ret err

/-- Wrapper method `Insert`. -/
def Insert (drv : mgo.Driver) (m : Mongo) (collectionName : String) (document : bson.Value) :
    Run (Bool × Option Go.Error) :=
  let c := m.Collections.get collectionName
  ⟨writeOutcome (mgo.onReceiver c (fun coll => drv.Insert coll document)), m,
    [.Insert c document]⟩

/-- Wrapper method `Update`. -/
def Update (drv : mgo.Driver) (m : Mongo) (collectionName : String) (_id : bson.ObjectId)
    (update : bson.Value) : Run (Bool × Option Go.Error) :=
  let c := m.Collections.get collectionName
  let selector : bson.M := some [("_id", .oid _id)]
  ⟨writeOutcome (mgo.onReceiver c (fun coll => drv.Update coll selector update)), m,
    [.Update c selector update]⟩

/-- Wrapper method `Delete`. -/
def Delete (drv : mgo.Driver) (m : Mongo) (collectionName : String) (_id : bson.ObjectId) :
    Run (Bool × Option Go.Error) :=
  let c := m.Collections.get collectionName
  ⟨writeOutcome (mgo.onReceiver c (fun coll => drv.RemoveId coll _id)), m, [.RemoveId c _id]⟩

/-- Wrapper method `DeleteAll`; the change count returned by `RemoveAll` is dropped. -/
def DeleteAll (drv : mgo.Driver) (m : Mongo) (collectionName : String) (filter : bson.M) :
    Run (Bool × Option Go.Error) :=
  let c := m.Collections.get collectionName
  ⟨writeOutcome (mgo.onReceiver c (fun coll => dropInfo (drv.RemoveAll coll filter))), m,
    [.RemoveAll c filter]⟩

end Mongo

/-! ## Vocabulary of the statements -/

/-- A hexadecimal digit: one of `0`-`9`, `a`-`f`, `A`-`F`. -/
def isHexDigit (c : Char) : Bool :=
  (48 ≤ c.toNat && c.toNat ≤ 57) || (97 ≤ c.toNat && c.toNat ≤ 102) ||
    (65 ≤ c.toNat && c.toNat ≤ 70)

/-- A string made of exactly 24 hexadecimal digits. -/
def Hex24 (s : String) : Prop :=
  s.length = 24 ∧ ∀ c ∈ s.data, isHexDigit c = true

/-- Case normalisation of a string: every letter replaced by its lower-case form. -/
def lower (s : String) : String :=
  ⟨s.data.map Char.toLower⟩

/-- The zero value of `Mongo`: no `NewSession` has succeeded yet. -/
def Mongo.zero : Mongo := ⟨none, none⟩

/-- A string of 12 characters and 24 bytes. -/
def twelveAccented : String := "éééééééééééé"

/-- A string of 24 ASCII letters, none of them a hexadecimal digit. -/
def twentyFourZ : String := "zzzzzzzzzzzzzzzzzzzzzzzz"

/-- A string of 24 hexadecimal digits, in mixed case. -/
def sampleHex : String := "4D88e15b60f486e428412dC9"

/-- The session the sample server hands out. -/
def sampleSession : mgo.Session := ⟨1, "test"⟩

/-- The handle of collection `users` in database `test` on the sample session. -/
def usersHandle : mgo.Collection := ⟨⟨some sampleSession, "test"⟩, "users", "test.users"⟩

/-- The handle of collection `logs` in database `test` on the sample session. -/
def logsHandle : mgo.Collection := ⟨⟨some sampleSession, "test"⟩, "logs", "test.logs"⟩

/-- A sample server: reachable at `localhost`; reads and writes succeed on `test.users` and
fail with an error on every other collection. -/
def sampleDriver : mgo.Driver :=
  ⟨fun url => if url = "localhost" then .ret (some sampleSession, none)
      else .ret (none, some ⟨"no reachable servers"⟩),
    fun q => if q.collection.FullName = "test.users"
      then .ret (some [("name", bson.Value.str "Ann")], none)
      else .ret (none, some ⟨"not found"⟩),
    fun q => if q.collection.FullName = "test.users"
      then .ret (some [some [("name", bson.Value.str "Ann")]], none)
      else .ret (none, some ⟨"query failed"⟩),
    fun c _ => if c.FullName = "test.users" then .ret none else .ret (some ⟨"write failed"⟩),
    fun c _ _ => if c.FullName = "test.users" then .ret none else .ret (some ⟨"not found"⟩),
    fun c _ => if c.FullName = "test.users" then .ret none else .ret (some ⟨"not found"⟩),
    fun c _ => if c.FullName = "test.users" then .ret (1, none)
      else .ret (0, some ⟨"write failed"⟩)⟩

/-- What the claims say of one write method: `run` made the single driver call `call`, left
the registry `m` as it was, returned `(true, nil)` when the driver returned no error and
`(false, err)` when the driver returned the error `err`, and its boolean is true exactly
when its error is nil. -/
def ForwardsOnce (run : Mongo.Run (Bool × Option Go.Error)) (m : Mongo) (call : mgo.Call)
    (reply : Go.Outcome (Option Go.Error)) : Prop :=
  run.calls = [call] ∧ run.registry = m ∧
  (reply = .ret none → run.outcome = .ret (true, none)) ∧
  (∀ err, reply = .ret (some err) → run.outcome = .ret (false, some err)) ∧
  (∀ ok err, run.outcome = .ret (ok, err) → (ok = true ↔ err = none))

/-- A 12-byte identifier, the decoding of `sampleHex`. -/
def sampleId : bson.ObjectId := ⟨[77, 136, 225, 91, 96, 244, 134, 228, 40, 65, 45, 201]⟩

/-- The handle `NewCollection` builds for `test.users` when the registry has no session. -/
def detachedHandle : mgo.Collection := ⟨⟨none, "test"⟩, "users", "test.users"⟩

/-- A registry whose map was made by hand, on which no session was ever dialled, after
`NewCollection("test", "users")`: the key `test.users` is cached with a handle whose session
is nil. -/
def detachedRegistry : Mongo :=
  (Mongo.NewCollection ⟨none, Go.Map.make⟩ "test" "users").registry

/-- A registry after a successful `NewSession` and two `NewCollection` calls. -/
def sampleRegistry : Mongo :=
  ⟨some sampleSession, some [("test.users", usersHandle), ("test.logs", logsHandle)]⟩

/-! ## Lemmas on the hexadecimal codec -/

theorem hexDigit_facts (c : Char) (h : isHexDigit c = true) :
    Go.utf8 c = [c.toNat] ∧
      ∃ a, hex.fromHexChar c.toNat = some a ∧ a < 16 ∧ hex.hextable.getD a '0' = c.toLower := by
  have hc : Char.ofNat c.toNat = c := Char.ofNat_toNat c
  obtain ⟨n, hn⟩ : ∃ n, c.toNat = n := ⟨_, rfl⟩
  simp only [isHexDigit, hn, Bool.or_eq_true, Bool.and_eq_true, decide_eq_true_eq] at h
  rw [hn] at hc ⊢
  subst hc
  have hlo : 48 ≤ n := by omega
  have hhi : n ≤ 102 := by omega
  interval_cases n <;> first
    | exact ⟨rfl, _, rfl, by decide, rfl⟩
    | (exfalso; omega)

theorem nibbles (a b : Nat) (ha : a < 16) (hb : b < 16) :
    ((a <<< 4 ||| b) % 256) >>> 4 = a ∧ ((a <<< 4 ||| b) % 256) &&& 0x0f = b := by
  interval_cases a <;> interval_cases b <;> decide

/-- Decoding `2 * n` hexadecimal digits gives `n` bytes whose encoding is the input in
lower case. -/
theorem decode_hexDigits : ∀ (n : Nat) (cs : List Char), cs.length = 2 * n →
    (∀ c ∈ cs, isHexDigit c = true) →
    ∃ d, hex.Decode (cs.flatMap Go.utf8) = some d ∧ d.length = n ∧
      (hex.EncodeToString d).data = cs.map Char.toLower := by
  intro n
  induction n with
  | zero =>
    intro cs hlen _
    have : cs = [] := List.length_eq_zero.mp (by simpa using hlen)
    subst this
    exact ⟨[], rfl, rfl, rfl⟩
  | succ k ih =>
    intro cs hlen hall
    match cs, hlen, hall with
    | x :: y :: rest, hlen, hall =>
      have hrest : rest.length = 2 * k := by simp at hlen; omega
      obtain ⟨d, hd, hdl, hde⟩ := ih rest hrest (fun c hc => hall c (by simp [hc]))
      obtain ⟨hx, a, hxa, ha, hxl⟩ := hexDigit_facts x (hall x (by simp))
      obtain ⟨hy, b, hyb, hb, hyl⟩ := hexDigit_facts y (hall y (by simp))
      obtain ⟨n1, n2⟩ := nibbles a b ha hb
      refine ⟨(a <<< 4 ||| b) % 256 :: d, ?_, by simp [hdl], ?_⟩
      · simp only [List.flatMap_cons, hx, hy, List.singleton_append, hex.Decode, hxa, hyb, hd]
      · have hde2 : d.flatMap
            (fun v => [hex.hextable.getD (v >>> 4) '0', hex.hextable.getD (v &&& 0x0f) '0'])
            = rest.map Char.toLower := hde
        simp only [hex.EncodeToString, List.flatMap_cons, n1, n2, hxl, hyl, hde2, List.map_cons,
          List.cons_append, List.nil_append]
    | [], hlen, _ => simp at hlen
    | [_], hlen, _ => simp at hlen; omega

/-- On a string of 24 hexadecimal digits the driver decoder returns 12 bytes that encode
back to the string in lower case. -/
theorem ObjectIdHex_hex24 (s : String) (hs : Hex24 s) :
    ∃ id : bson.ObjectId, bson.ObjectIdHex s = .ret id ∧ hex.DecodeString s = some id.raw ∧
      id.raw.length = 12 ∧ id.Hex = lower s ∧ Go.len s = 24 := by
  obtain ⟨hlen, hall⟩ := hs
  have h24 : s.data.length = 2 * 12 := hlen
  obtain ⟨d, hd, hdl, hde⟩ := decode_hexDigits 12 s.data h24 hall
  refine ⟨⟨d⟩, ?_, hd, hdl, ?_, ?_⟩
  · simp [bson.ObjectIdHex, hex.DecodeString, Go.bytes, hd, hdl]
  · simp only [bson.ObjectId.Hex, lower]
    exact String.ext hde
  · have hb : ∀ cs : List Char, (∀ c ∈ cs, isHexDigit c = true) →
        (cs.flatMap Go.utf8).length = cs.length := by
      intro cs
      induction cs with
      | nil => intro _; rfl
      | cons x xs ih =>
        intro h
        have hx := (hexDigit_facts x (h x (by simp))).1
        simp only [List.flatMap_cons, hx, List.singleton_append, List.length_cons]
        rw [ih (fun c hc => h c (by simp [hc]))]
    simp only [Go.len, Go.bytes]
    rw [hb s.data hall]
    exact hlen

/-! ## `ObjectId` -/

/-- C1, as stated, fails: the string of twelve `é` has 12 characters, not 24, yet `ObjectId`
does not return the length error with an empty call list: its 24 bytes pass the length test,
the driver decoder is called and aborts. -/
theorem ObjectId_twelveAccented_not_rejected :
    twelveAccented.length = 12 ∧ twelveAccented.length ≠ 24 ∧ Go.len twelveAccented = 24 ∧
    ¬ ((Mongo.ObjectId Mongo.zero twelveAccented).outcome =
          .ret (bson.ObjectId.empty, some ⟨Mongo.lengthMessage⟩) ∧
        (Mongo.ObjectId Mongo.zero twelveAccented).calls = []) ∧
    (Mongo.ObjectId Mongo.zero twelveAccented).calls = [mgo.Call.ObjectIdHex twelveAccented] ∧
    (Mongo.ObjectId Mongo.zero twelveAccented).outcome =
      .abort "invalid input to ObjectIdHex: éééééééééééé" := by
  refine ⟨by decide, by decide, by decide, ?_, rfl, rfl⟩
  rintro ⟨_, h⟩
  exact absurd h (by
    show [mgo.Call.ObjectIdHex twelveAccented] ≠ []
    simp)

/-- C1, amended: for every string whose length in bytes (Go `len`) is not 24, `ObjectId`
returns the empty identifier together with a non-nil error whose message states the required
length (24 hexadecimal characters, 12 bytes), leaves the receiver as it was, and makes no call
to the driver, so the hexadecimal decoder is never reached. -/
theorem ObjectId_rejects_other_byte_lengths (m : Mongo) (s : String) (h : Go.len s ≠ 24) :
    Mongo.ObjectId m s =
      ⟨.ret (⟨[]⟩, some
        ⟨"ObjectId must be 24 hexademical characters long (to be converted to 12 bytes)"⟩),
        m, []⟩ := by
  simp [Mongo.ObjectId, h, bson.ObjectId.empty, Mongo.lengthMessage]

/-- Witness of `ObjectId_rejects_other_byte_lengths` at the three-byte string `abc`. -/
theorem ObjectId_rejects_other_byte_lengths_witness :
    Go.len "abc" ≠ 24 ∧
    Mongo.ObjectId Mongo.zero "abc" =
      ⟨.ret (⟨[]⟩, some
        ⟨"ObjectId must be 24 hexademical characters long (to be converted to 12 bytes)"⟩),
        Mongo.zero, []⟩ :=
  ⟨by decide, ObjectId_rejects_other_byte_lengths Mongo.zero "abc" (by decide)⟩

/-- C2, the code at the failing input: on the 24-character string `zzzzzzzzzzzzzzzzzzzzzzzz`,
none of whose characters is a hexadecimal digit, `ObjectId` passes the length test, calls
`bson.ObjectIdHex` and aborts there; no error value is returned to the caller. -/
theorem ObjectId_twentyFourZ_aborts :
    twentyFourZ.length = 24 ∧ twentyFourZ.data.all (fun c => !isHexDigit c) = true ∧
    (Mongo.ObjectId Mongo.zero twentyFourZ).calls = [mgo.Call.ObjectIdHex twentyFourZ] ∧
    (Mongo.ObjectId Mongo.zero twentyFourZ).outcome =
      .abort "invalid input to ObjectIdHex: zzzzzzzzzzzzzzzzzzzzzzzz" :=
  ⟨by decide, by decide, rfl, rfl⟩

/-- C3: for every string `s` made of exactly 24 hexadecimal digits, `ObjectId s` returns with
a nil error the identifier `bson.ObjectIdHex s` produces, which is the 12-byte hexadecimal
decoding of `s`; the hexadecimal encoding of that identifier is `s` in lower case; and any
24-digit string on which `ObjectId` returns the same identifier has the same lower-case
form as `s`. -/
theorem ObjectId_hex24_roundtrip (m : Mongo) (s : String) (hs : Hex24 s) :
    ∃ id : bson.ObjectId,
      Mongo.ObjectId m s = ⟨.ret (id, none), m, [mgo.Call.ObjectIdHex s]⟩ ∧
      bson.ObjectIdHex s = .ret id ∧ hex.DecodeString s = some id.raw ∧
      id.raw.length = 12 ∧ id.Hex = lower s ∧
      ∀ (n : Mongo) (t : String), Hex24 t →
        (Mongo.ObjectId n t).outcome = .ret (id, none) → lower t = lower s := by
  obtain ⟨id, hid, hdec, hlen, henc, hbytes⟩ := ObjectIdHex_hex24 s hs
  refine ⟨id, ?_, hid, hdec, hlen, henc, ?_⟩
  · simp [Mongo.ObjectId, hbytes, hid]
  · intro n t ht hout
    obtain ⟨id2, hid2, _, _, henc2, hbytes2⟩ := ObjectIdHex_hex24 t ht
    have hrun : (Mongo.ObjectId n t).outcome = .ret (id2, none) := by
      simp [Mongo.ObjectId, hbytes2, hid2]
    rw [hrun] at hout
    have hEq : id2 = id := by
      injection hout with h1
      exact congrArg Prod.fst h1
    rw [← henc2, ← henc, hEq]

/-- Witness of `ObjectId_hex24_roundtrip` at a mixed-case identifier string. -/
theorem ObjectId_hex24_roundtrip_witness :
    Hex24 sampleHex ∧
    ∃ id : bson.ObjectId,
      Mongo.ObjectId Mongo.zero sampleHex =
        ⟨.ret (id, none), Mongo.zero, [mgo.Call.ObjectIdHex sampleHex]⟩ ∧
      id.raw = [77, 136, 225, 91, 96, 244, 134, 228, 40, 65, 45, 201] ∧
      id.Hex = "4d88e15b60f486e428412dc9" := by
  have hs : Hex24 sampleHex := ⟨by decide, by decide⟩
  obtain ⟨id, hrun, _, hdec, _, henc, _⟩ := ObjectId_hex24_roundtrip Mongo.zero sampleHex hs
  refine ⟨hs, id, hrun, ?_, ?_⟩
  · have h2 : hex.DecodeString sampleHex =
        some [77, 136, 225, 91, 96, 244, 134, 228, 40, 65, 45, 201] := by decide
    rw [h2] at hdec
    exact (Option.some.inj hdec).symm
  · rw [henc]
    decide

/-! ## Lemmas on Go maps and on the cache key -/

theorem lookup_filter_ne {V : Type} (k j : String) (hj : j ≠ k) (kvs : List (String × V)) :
    (kvs.filter (fun kv => kv.1 != k)).lookup j = kvs.lookup j := by
  induction kvs with
  | nil => rfl
  | cons kv rest ih =>
    obtain ⟨a, v⟩ := kv
    by_cases hak : a = k
    · subst hak
      have hja : (j == a) = false := by simpa using hj
      simp [List.filter_cons, List.lookup_cons, hja, ih]
    · have hne : (a != k) = true := by simpa using hak
      simp only [List.filter_cons, hne, if_true, List.lookup_cons, ih]

theorem Map_set_get {V : Type} (kvs : List (String × V)) (k : String) (v : V) :
    ∃ kvs2, Go.Map.set (some kvs) k v = .ret (some kvs2) ∧
      Go.Map.get (some kvs2) k = some v ∧
      ∀ j, j ≠ k → Go.Map.get (some kvs2) j = Go.Map.get (some kvs) j := by
  refine ⟨(k, v) :: kvs.filter (fun kv => kv.1 != k), rfl, by simp [Go.Map.get], ?_⟩
  intro j hj
  have hjk : (j == k) = false := by simpa using hj
  simp [Go.Map.get, List.lookup_cons, hjk, lookup_filter_ne k j hj]

theorem split_at_first {α : Type} (a : α) : ∀ (l1 l2 r1 r2 : List α), a ∉ l1 → a ∉ l2 →
    l1 ++ a :: r1 = l2 ++ a :: r2 → l1 = l2 ∧ r1 = r2 := by
  intro l1
  induction l1 with
  | nil =>
    intro l2 r1 r2 _ h2 h
    cases l2 with
    | nil => simpa using h
    | cons y ys =>
      simp only [List.nil_append, List.cons_append, List.cons.injEq] at h
      exact absurd (h.1 ▸ List.mem_cons_self _ _) h2
  | cons x xs ih =>
    intro l2 r1 r2 h1 h2 h
    cases l2 with
    | nil =>
      simp only [List.nil_append, List.cons_append, List.cons.injEq] at h
      exact absurd (h.1 ▸ List.mem_cons_self _ _) h1
    | cons y ys =>
      simp only [List.cons_append, List.cons.injEq] at h
      obtain ⟨e1, e2⟩ := ih ys r1 r2 (fun hm => h1 (List.mem_cons_of_mem _ hm))
        (fun hm => h2 (List.mem_cons_of_mem _ hm)) h.2
      exact ⟨by rw [h.1, e1], e2⟩

theorem key_inj (d1 c1 d2 c2 : String) (h1 : '.' ∉ d1.data) (h2 : '.' ∉ d2.data)
    (h : Mongo.key d1 c1 = Mongo.key d2 c2) : d1 = d2 ∧ c1 = c2 := by
  have hd : d1.data ++ '.' :: c1.data = d2.data ++ '.' :: c2.data := by
    have := congrArg String.data h
    simpa [Mongo.key, String.data_append] using this
  obtain ⟨e1, e2⟩ := split_at_first '.' _ _ _ _ h1 h2 hd
  exact ⟨String.ext e1, String.ext e2⟩

/-- What `NewCollection` does on a registry with a session and an initialised map. -/
theorem NewCollection_initialised (m : Mongo) (sess : mgo.Session)
    (cs : List (String × mgo.Collection)) (d c : String)
    (hs : m.Session = some sess) (hc : m.Collections = some cs) :
    ∃ db, mgo.Session.DB m.Session d = .ret db ∧
      (Mongo.NewCollection m d c).outcome = .ret (db.C c) ∧
      (Mongo.NewCollection m d c).registry.Collections.get (Mongo.key d c) = some (db.C c) ∧
      (∀ j, j ≠ Mongo.key d c →
        (Mongo.NewCollection m d c).registry.Collections.get j = m.Collections.get j) ∧
      (Mongo.NewCollection m d c).registry.Session = m.Session ∧
      (Mongo.NewCollection m d c).calls = [.DB m.Session d, .C db c] := by
  have hdb : ∃ db, mgo.Session.DB m.Session d = .ret db := by
    rw [hs]
    by_cases hd : d = ""
    · exact ⟨⟨some sess, sess.defaultdb⟩, by simp [mgo.Session.DB, hd]⟩
    · exact ⟨⟨some sess, d⟩, by simp [mgo.Session.DB, hd]⟩
  obtain ⟨db, hdb⟩ := hdb
  obtain ⟨kvs2, hset, hget, hother⟩ := Map_set_get cs (Mongo.key d c) (db.C c)
  have hset2 : Go.Map.set m.Collections (d ++ "." ++ c) (db.C c) = .ret (some kvs2) := by
    rw [hc]; exact hset
  have hrun : Mongo.NewCollection m d c =
      ⟨.ret (db.C c), ⟨m.Session, some kvs2⟩, [.DB m.Session d, .C db c]⟩ := by
    simp only [Mongo.NewCollection, hdb, hset2]
  rw [hrun]
  refine ⟨db, hdb, rfl, hget, ?_, rfl, rfl⟩
  intro j hj
  rw [hc]
  exact hother j hj

/-- An abort of `NewCollection` leaves the registry as it was. -/
theorem NewCollection_get_other (m : Mongo) (d c j : String) (hj : j ≠ Mongo.key d c) :
    (Mongo.NewCollection m d c).registry.Collections.get j = m.Collections.get j := by
  unfold Mongo.NewCollection
  cases hdb : mgo.Session.DB m.Session d with
  | abort r => rfl
  | ret db =>
    cases hcs : m.Collections with
    | none => simp [Go.Map.set, hcs]
    | some cs =>
      obtain ⟨kvs2, hset, _, hother⟩ := Map_set_get cs (Mongo.key d c) (db.C c)
      have hset2 : Go.Map.set (some cs) (d ++ "." ++ c) (db.C c) = .ret (some kvs2) := hset
      simp only [hset2]
      exact hother j hj

/-! ## `NewSession` and `NewCollection` -/

/-- C5: when the dial of `NewSession` returns no error, `NewSession` returns nil, the session
of the registry is the dialled session, and the map of collections is a fresh empty map, so
every key, cached before or not, is absent; the only driver call is the dial. -/
theorem NewSession_success (drv : mgo.Driver) (m : Mongo) (url : String)
    (session : Option mgo.Session) (h : drv.Dial url = .ret (session, none)) :
    (Mongo.NewSession drv m url).outcome = .ret none ∧
    (Mongo.NewSession drv m url).registry.Session = session ∧
    (Mongo.NewSession drv m url).registry.Collections = some [] ∧
    (∀ k, (Mongo.NewSession drv m url).registry.Collections.get k = none) ∧
    (Mongo.NewSession drv m url).calls = [.Dial url] := by
  have hrun : Mongo.NewSession drv m url = ⟨.ret none, ⟨session, some []⟩, [.Dial url]⟩ := by
    simp [Mongo.NewSession, h, Go.Map.make]
  rw [hrun]
  exact ⟨rfl, rfl, rfl, fun _ => rfl, rfl⟩

/-- Witness of `NewSession_success`: a reconnection of the sample registry, which had two
cached handles. -/
theorem NewSession_success_witness :
    sampleRegistry.Collections.get "test.users" = some usersHandle ∧
    sampleDriver.Dial "localhost" = .ret (some sampleSession, none) ∧
    (Mongo.NewSession sampleDriver sampleRegistry "localhost").registry.Session
      = some sampleSession ∧
    (Mongo.NewSession sampleDriver sampleRegistry "localhost").registry.Collections.get
      "test.users" = none :=
  ⟨by decide, rfl,
    (NewSession_success sampleDriver sampleRegistry "localhost" (some sampleSession) rfl).2.1,
    (NewSession_success sampleDriver sampleRegistry "localhost" (some sampleSession) rfl).2.2.2.1
      "test.users"⟩

/-- C6: on a registry with an open session and an initialised map, `NewCollection` returns the
handle `Session.DB(databaseName).C(collectionName)`; afterwards the map holds that handle
under `databaseName + "." + collectionName`, every other key reads as before, and the session
is unchanged. -/
theorem NewCollection_caches_handle (m : Mongo) (sess : mgo.Session)
    (cs : List (String × mgo.Collection)) (databaseName collectionName : String)
    (hs : m.Session = some sess) (hc : m.Collections = some cs) :
    ∃ db, mgo.Session.DB m.Session databaseName = .ret db ∧
      (Mongo.NewCollection m databaseName collectionName).outcome
        = .ret (db.C collectionName) ∧
      (Mongo.NewCollection m databaseName collectionName).registry.Collections.get
        (databaseName ++ "." ++ collectionName) = some (db.C collectionName) ∧
      (∀ k, k ≠ databaseName ++ "." ++ collectionName →
        (Mongo.NewCollection m databaseName collectionName).registry.Collections.get k
          = m.Collections.get k) ∧
      (Mongo.NewCollection m databaseName collectionName).registry.Session = m.Session := by
  obtain ⟨db, h1, h2, h3, h4, h5, _⟩ :=
    NewCollection_initialised m sess cs databaseName collectionName hs hc
  exact ⟨db, h1, h2, h3, h4, h5⟩

/-- Witness of `NewCollection_caches_handle`: a third collection on the sample registry. -/
theorem NewCollection_caches_handle_witness :
    ∃ db, mgo.Session.DB sampleRegistry.Session "shop" = .ret db ∧
      (Mongo.NewCollection sampleRegistry "shop" "orders").outcome = .ret (db.C "orders") ∧
      (Mongo.NewCollection sampleRegistry "shop" "orders").registry.Collections.get
        ("shop" ++ "." ++ "orders") = some (db.C "orders") ∧
      (∀ k, k ≠ "shop" ++ "." ++ "orders" →
        (Mongo.NewCollection sampleRegistry "shop" "orders").registry.Collections.get k
          = sampleRegistry.Collections.get k) ∧
      (Mongo.NewCollection sampleRegistry "shop" "orders").registry.Session
        = sampleRegistry.Session :=
  NewCollection_caches_handle sampleRegistry sampleSession
    [("test.users", usersHandle), ("test.logs", logsHandle)] "shop" "orders" rfl rfl

/-- C7, as stated, fails: on the zero value of the registry, on which `NewSession` never
succeeded, `NewCollection` returns no handle; it aborts on the assignment to the nil map. -/
theorem NewCollection_zero_aborts :
    (Mongo.NewCollection Mongo.zero "test" "users").outcome
      = .abort "assignment to entry in nil map" :=
  rfl

/-- C7, amended: `NewCollection` has no error path on an initialised registry: whenever the
session is set and the map of collections is initialised (as after a successful
`NewSession`), it returns a collection handle for every database and collection name; on a
registry whose map of collections is still unset it aborts for every pair of names. -/
theorem NewCollection_returns_iff_initialised (m : Mongo) (databaseName collectionName : String) :
    (m.Session ≠ none → m.Collections ≠ none →
      ∃ handle, (Mongo.NewCollection m databaseName collectionName).outcome = .ret handle) ∧
    (m.Collections = none →
      ∃ reason, (Mongo.NewCollection m databaseName collectionName).outcome = .abort reason) := by
  constructor
  · intro hs hc
    obtain ⟨sess, hs2⟩ : ∃ sess, m.Session = some sess := by
      cases hm : m.Session with
      | none => exact absurd hm hs
      | some sess => exact ⟨sess, rfl⟩
    obtain ⟨cs, hc2⟩ : ∃ cs, m.Collections = some cs := by
      cases hm : m.Collections with
      | none => exact absurd hm hc
      | some cs => exact ⟨cs, rfl⟩
    obtain ⟨db, _, h2, _⟩ :=
      NewCollection_initialised m sess cs databaseName collectionName hs2 hc2
    exact ⟨_, h2⟩
  · intro hc
    unfold Mongo.NewCollection
    cases hdb : mgo.Session.DB m.Session databaseName with
    | abort r => exact ⟨r, rfl⟩
    | ret db => exact ⟨"assignment to entry in nil map", by simp [hc, Go.Map.set]⟩

/-- Witness of `NewCollection_returns_iff_initialised`: the sample registry returns a handle,
the zero registry aborts. -/
theorem NewCollection_returns_iff_initialised_witness :
    (∃ handle, (Mongo.NewCollection sampleRegistry "test" "users").outcome = .ret handle) ∧
    (∃ reason, (Mongo.NewCollection Mongo.zero "test" "users").outcome = .abort reason) :=
  ⟨(NewCollection_returns_iff_initialised sampleRegistry "test" "users").1
      (by simp [sampleRegistry]) (by simp [sampleRegistry]),
    (NewCollection_returns_iff_initialised Mongo.zero "test" "users").2 rfl⟩

/-- C10: the key `databaseName + "." + collectionName` identifies the pair when the database
names hold no dot: equal keys then come from equal pairs, and `NewCollection` on a different
pair leaves the entry of the first pair as it was.  Without the restriction the key is not
injective: the pairs `("a.b", "c")` and `("a", "b.c")` share the key `a.b.c`, and after
`NewCollection` on both the handle cached under it is the one of the second pair. -/
theorem key_identifies_pair (d1 c1 d2 c2 : String) (h1 : '.' ∉ d1.data) (h2 : '.' ∉ d2.data) :
    (Mongo.key d1 c1 = Mongo.key d2 c2 → d1 = d2 ∧ c1 = c2) ∧
    (∀ m : Mongo, (d1, c1) ≠ (d2, c2) →
      (Mongo.NewCollection m d2 c2).registry.Collections.get (Mongo.key d1 c1)
        = m.Collections.get (Mongo.key d1 c1)) ∧
    (Mongo.key "a.b" "c" = Mongo.key "a" "b.c" ∧ ("a.b", "c") ≠ ("a", "b.c") ∧
      (Mongo.NewCollection sampleRegistry "a.b" "c").registry.Collections.get
        (Mongo.key "a.b" "c") = some ⟨⟨some sampleSession, "a.b"⟩, "c", "a.b.c"⟩ ∧
      (Mongo.NewCollection (Mongo.NewCollection sampleRegistry "a.b" "c").registry
        "a" "b.c").registry.Collections.get (Mongo.key "a.b" "c")
          = some ⟨⟨some sampleSession, "a"⟩, "b.c", "a.b.c"⟩ ∧
      (⟨⟨some sampleSession, "a.b"⟩, "c", "a.b.c"⟩ : mgo.Collection)
        ≠ ⟨⟨some sampleSession, "a"⟩, "b.c", "a.b.c"⟩) := by
  refine ⟨key_inj d1 c1 d2 c2 h1 h2, ?_, by decide, by decide, by decide, by decide, by decide⟩
  intro m hne
  apply NewCollection_get_other
  intro hk
  obtain ⟨e1, e2⟩ := key_inj d1 c1 d2 c2 h1 h2 hk
  exact hne (by rw [e1, e2])

/-- Witness of `key_identifies_pair`: `test.logs` is created next to the cached
`test.users`, whose entry stays. -/
theorem key_identifies_pair_witness :
    '.' ∉ "test".data ∧ ("test", "users") ≠ ("test", "logs") ∧
    (Mongo.NewCollection sampleRegistry "test" "logs").registry.Collections.get
      (Mongo.key "test" "users") = sampleRegistry.Collections.get (Mongo.key "test" "users") :=
  ⟨by decide, by decide,
    (key_identifies_pair "test" "users" "test" "logs" (by decide) (by decide)).2.1
      sampleRegistry (by decide)⟩

/-! ## Reads -/

/-- C8, as stated, fails: on the registry whose map was made without a session,
`NewCollection("test", "users")` caches the key `test.users`, and `FindById` on that cached
key sends nothing to the server and returns neither a document nor an error: the driver
method `Find` aborts on the nil session of the handle. -/
theorem FindById_detached_handle_aborts :
    (Mongo.NewCollection ⟨none, Go.Map.make⟩ "test" "users").outcome = .ret detachedHandle ∧
    detachedRegistry.Collections.get "test.users" = some detachedHandle ∧
    (Mongo.FindById sampleDriver detachedRegistry "test.users" sampleId none).outcome
      = .abort "invalid memory address or nil pointer dereference" ∧
    (Mongo.FindById sampleDriver detachedRegistry "test.users" sampleId none).calls
      = [.Find (some detachedHandle) (some [("_id", bson.Value.oid sampleId)])] :=
  ⟨rfl, by decide, rfl, rfl⟩

/-- C8, amended: for a cached collection key whose handle belongs to a session (its session
pointer is not nil, as for every handle `NewCollection` caches after a successful
`NewSession`), `FindById` builds its query on the cached handle with the filter `{_id: id}`;
`Select` is called exactly when the projection is non-nil, with the supplied projection as
its argument; the query is then run once with `One`; the driver document is returned with a
nil error when the driver reports none, and a nil document with the driver error, unchanged,
otherwise; the registry is not modified.  On a cached handle whose session is nil the only
driver call is `Find`, which aborts. -/
theorem FindById_forwards (drv : mgo.Driver) (m : Mongo) (collectionName : String)
    (id : bson.ObjectId) (selected : bson.M) (c : mgo.Collection)
    (hc : m.Collections.get collectionName = some c) :
    (∀ sess, c.Database.Session = some sess →
      ∃ sent : mgo.Query,
        sent.collection = c ∧ sent.query = some [("_id", bson.Value.oid id)] ∧
        (selected = none → sent.selector = none ∧
          (Mongo.FindById drv m collectionName id selected).calls
            = [.Find (some c) (some [("_id", bson.Value.oid id)]), .One sent]) ∧
        (∀ fields, selected = some fields → sent.selector = some (some fields) ∧
          (Mongo.FindById drv m collectionName id selected).calls
            = [.Find (some c) (some [("_id", bson.Value.oid id)]),
                .Select ⟨c, some [("_id", bson.Value.oid id)], none⟩ (some fields),
                .One sent]) ∧
        (∀ doc, drv.One sent = .ret (doc, none) →
          (Mongo.FindById drv m collectionName id selected).outcome = .ret (doc, none)) ∧
        (∀ doc err, drv.One sent = .ret (doc, some err) →
          (Mongo.FindById drv m collectionName id selected).outcome
            = .ret (none, some err)) ∧
        (Mongo.FindById drv m collectionName id selected).registry = m) ∧
    (c.Database.Session = none →
      (∃ reason, (Mongo.FindById drv m collectionName id selected).outcome = .abort reason) ∧
      (Mongo.FindById drv m collectionName id selected).calls
        = [.Find (some c) (some [("_id", bson.Value.oid id)])] ∧
      (Mongo.FindById drv m collectionName id selected).registry = m) := by
  constructor
  · intro sess hs
    cases selected with
    | none =>
      refine ⟨⟨c, some [("_id", bson.Value.oid id)], none⟩, rfl, rfl, ?_, ?_, ?_, ?_, ?_⟩
      · intro _
        exact ⟨rfl, by simp [Mongo.FindById, hc, hs, mgo.Collection.Find]⟩
      · intro fields h
        cases h
      · intro doc h
        simp [Mongo.FindById, hc, hs, mgo.Collection.Find, h, Mongo.oneResult]
      · intro doc err h
        simp [Mongo.FindById, hc, hs, mgo.Collection.Find, h, Mongo.oneResult]
      · simp [Mongo.FindById, hc, hs, mgo.Collection.Find]
    | some sel =>
      refine ⟨⟨c, some [("_id", bson.Value.oid id)], some (some sel)⟩, rfl, rfl,
        ?_, ?_, ?_, ?_, ?_⟩
      · intro h
        cases h
      · intro fields h
        cases h
        exact ⟨rfl, by simp [Mongo.FindById, hc, hs, mgo.Collection.Find, mgo.Query.Select]⟩
      · intro doc h
        simp [Mongo.FindById, hc, hs, mgo.Collection.Find, mgo.Query.Select, h, Mongo.oneResult]
      · intro doc err h
        simp [Mongo.FindById, hc, hs, mgo.Collection.Find, mgo.Query.Select, h, Mongo.oneResult]
      · simp [Mongo.FindById, hc, hs, mgo.Collection.Find]
  · intro hs
    cases selected with
    | none =>
      exact ⟨⟨"invalid memory address or nil pointer dereference",
          by simp [Mongo.FindById, hc, hs, mgo.Collection.Find]⟩,
        by simp [Mongo.FindById, hc, hs, mgo.Collection.Find],
        by simp [Mongo.FindById, hc, hs, mgo.Collection.Find]⟩
    | some sel =>
      exact ⟨⟨"invalid memory address or nil pointer dereference",
          by simp [Mongo.FindById, hc, hs, mgo.Collection.Find]⟩,
        by simp [Mongo.FindById, hc, hs, mgo.Collection.Find],
        by simp [Mongo.FindById, hc, hs, mgo.Collection.Find]⟩

/-- Witness of `FindById_forwards`: a read with a projection on the cached `test.users` of
the sample registry, whose handle belongs to the sample session; the driver document is
returned with a nil error. -/
theorem FindById_forwards_witness :
    sampleRegistry.Collections.get "test.users" = some usersHandle ∧
    usersHandle.Database.Session = some sampleSession ∧
    (∃ sent : mgo.Query,
      sent.collection = usersHandle ∧ sent.query = some [("_id", bson.Value.oid sampleId)] ∧
      sent.selector = some (some [("name", bson.Value.int 1)]) ∧
      (Mongo.FindById sampleDriver sampleRegistry "test.users" sampleId
          (some [("name", bson.Value.int 1)])).calls
        = [.Find (some usersHandle) (some [("_id", bson.Value.oid sampleId)]),
            .Select ⟨usersHandle, some [("_id", bson.Value.oid sampleId)], none⟩
              (some [("name", bson.Value.int 1)]),
            .One sent]) ∧
    (Mongo.FindById sampleDriver sampleRegistry "test.users" sampleId
        (some [("name", bson.Value.int 1)])).outcome
      = .ret (some [("name", bson.Value.str "Ann")], none) := by
  have hc : sampleRegistry.Collections.get "test.users" = some usersHandle := by decide
  obtain ⟨sent, h1, h2, _, h4, _⟩ :=
    (FindById_forwards sampleDriver sampleRegistry "test.users" sampleId
      (some [("name", bson.Value.int 1)]) usersHandle hc).1 sampleSession rfl
  exact ⟨hc, rfl, ⟨sent, h1, h2, (h4 _ rfl).1, (h4 _ rfl).2⟩, rfl⟩

/-- C4, the code at the failing input: `FindOne` on the cached `test.users` with the filter
`{name: "Ann"}` and the projection `{age: 1}` calls `Select` with the filter, and the query
run by `One` carries the filter, not the projection, as its field selection. -/
theorem FindOne_selects_with_filter :
    sampleRegistry.Collections.get "test.users" = some usersHandle ∧
    (Mongo.FindOne sampleDriver sampleRegistry "test.users"
        (some [("name", bson.Value.str "Ann")]) (some [("age", bson.Value.int 1)])).calls
      = [.Find (some usersHandle) (some [("name", bson.Value.str "Ann")]),
          .Select ⟨usersHandle, some [("name", bson.Value.str "Ann")], none⟩
            (some [("name", bson.Value.str "Ann")]),
          .One ⟨usersHandle, some [("name", bson.Value.str "Ann")],
            some (some [("name", bson.Value.str "Ann")])⟩] ∧
    (some [("name", bson.Value.str "Ann")] : bson.M) ≠ some [("age", bson.Value.int 1)] :=
  ⟨by decide, rfl, by simp⟩

/-! ## Writes -/

theorem writeOutcome_forwards (reply : Go.Outcome (Option Go.Error)) (m : Mongo)
    (call : mgo.Call) : ForwardsOnce ⟨Mongo.writeOutcome reply, m, [call]⟩ m call reply := by
  refine ⟨rfl, rfl, ?_, ?_, ?_⟩
  · intro h
    rw [h]
    rfl
  · intro err h
    rw [h]
    rfl
  · intro ok err h
    cases reply with
    | abort r => simp [Mongo.writeOutcome] at h
    | ret e =>
      cases e with
      | none =>
        simp only [Mongo.writeOutcome, Go.Outcome.ret.injEq, Prod.mk.injEq] at h
        simp [← h.1, ← h.2]
      | some x =>
        simp only [Mongo.writeOutcome, Go.Outcome.ret.injEq, Prod.mk.injEq] at h
        simp [← h.1, ← h.2]

/-- C9: on a cached collection key each of `Insert`, `Update`, `Delete` and `DeleteAll` makes
exactly one driver call (`Insert` with the document as given, `Update` with the filter
`{_id: id}`, `RemoveId` with the id, `RemoveAll` with the supplied filter); it returns
`(true, nil)` when the driver reports no error and `(false, err)` with the driver error
unchanged otherwise, so the boolean is true exactly when the error is nil; the registry is
left as it was. -/
theorem writes_forward_once (drv : mgo.Driver) (m : Mongo) (collectionName : String)
    (c : mgo.Collection) (hc : m.Collections.get collectionName = some c)
    (document update : bson.Value) (id : bson.ObjectId) (filter : bson.M) :
    ForwardsOnce (Mongo.Insert drv m collectionName document) m
      (.Insert (some c) document) (drv.Insert c document) ∧
    ForwardsOnce (Mongo.Update drv m collectionName id update) m
      (.Update (some c) (some [("_id", bson.Value.oid id)]) update)
      (drv.Update c (some [("_id", bson.Value.oid id)]) update) ∧
    ForwardsOnce (Mongo.Delete drv m collectionName id) m
      (.RemoveId (some c) id) (drv.RemoveId c id) ∧
    ForwardsOnce (Mongo.DeleteAll drv m collectionName filter) m
      (.RemoveAll (some c) filter) (Mongo.dropInfo (drv.RemoveAll c filter)) ∧
    (∀ n err, drv.RemoveAll c filter = .ret (n, err) →
      Mongo.dropInfo (drv.RemoveAll c filter) = .ret err) := by
  refine ⟨?_, ?_, ?_, ?_, ?_⟩
  · simp only [Mongo.Insert, hc, mgo.onReceiver]
    exact writeOutcome_forwards _ _ _
  · simp only [Mongo.Update, hc, mgo.onReceiver]
    exact writeOutcome_forwards _ _ _
  · simp only [Mongo.Delete, hc, mgo.onReceiver]
    exact writeOutcome_forwards _ _ _
  · simp only [Mongo.DeleteAll, hc, mgo.onReceiver]
    exact writeOutcome_forwards _ _ _
  · intro n err h
    rw [h]
    rfl

/-- Witness of `writes_forward_once`: on the sample registry a write to `test.users`
succeeds and a write to `test.logs` fails with the error of the driver. -/
theorem writes_forward_once_witness :
    (Mongo.Insert sampleDriver sampleRegistry "test.users" (bson.Value.str "Ann")).outcome
      = .ret (true, none) ∧
    (Mongo.Delete sampleDriver sampleRegistry "test.logs" ⟨[1, 2]⟩).outcome
      = .ret (false, some ⟨"not found"⟩) ∧
    (Mongo.Delete sampleDriver sampleRegistry "test.logs" ⟨[1, 2]⟩).calls
      = [.RemoveId (some logsHandle) ⟨[1, 2]⟩] :=
  ⟨(writes_forward_once sampleDriver sampleRegistry "test.users" usersHandle
      (by decide) (bson.Value.str "Ann") bson.Value.null ⟨[1, 2]⟩ none).1.2.2.1 rfl,
    (writes_forward_once sampleDriver sampleRegistry "test.logs" logsHandle
      (by decide) (bson.Value.str "Ann") bson.Value.null ⟨[1, 2]⟩ none).2.2.1.2.2.2.1
        ⟨"not found"⟩ rfl,
    (writes_forward_once sampleDriver sampleRegistry "test.logs" logsHandle
      (by decide) (bson.Value.str "Ann") bson.Value.null ⟨[1, 2]⟩ none).2.2.1.1⟩
